import Mathlib

/-!
Verification development for the Dime.Scheduler MCP playground core:
the MCP transport client (`MCPClient.ts`) and the tool-calling chat
orchestrator (`AIService.ts`), plus the session store (`mcpSession.ts`).

The TypeScript source is shallowly embedded: stateful methods become
explicit state-passing functions, network and platform primitives
(fetch, JSON.parse, JSON.stringify, the model endpoint, the wall clock)
become parameters, and thrown errors become `Except String`.
-/

namespace MCPDemo

/-- A JSON value, standing in for TypeScript `unknown` / `Record<string, unknown>`
payloads (tool arguments, tool results, input schemas). -/
inductive JsonVal where
  | null : JsonVal
  | bool : Bool → JsonVal
  | num : Int → JsonVal
  | str : String → JsonVal
  | arr : List JsonVal → JsonVal
  | obj : List (String × JsonVal) → JsonVal
deriving Repr

/-- `pre` is a prefix of the second list (JavaScript `startsWith`), defined
so that it reduces even when the second list has a free tail. -/
def charsStartsWith : List Char → List Char → Bool
  | [], _ => true
  | p :: ps, line =>
    match line with
    | [] => false
    | c :: cs => p == c && charsStartsWith ps cs

/-- Occurrence of `pat` as a contiguous sublist, checked structurally so the
kernel can evaluate it. -/
def charsContains (pat : List Char) : List Char → Bool
  | [] => charsStartsWith pat []
  | c :: rest => charsStartsWith pat (c :: rest) || charsContains pat rest

/-- JavaScript `String.prototype.includes`: `s.includes(pat)` is true iff
`pat` occurs as a contiguous substring of `s`. -/
def jsIncludes (s pat : String) : Bool :=
  charsContains pat.data s.data

/-! ## Transport client: `MCPClient.ts` -/

/-- Modelled from the spec: a Tool advertised by the MCP server
(`Tool.ts` is not among the provided sources; spec §3: `name`, optional
`description`, `inputSchema`). -/
structure Tool where
  name : String
  description : Option String := none
  inputSchema : Option JsonVal := none
deriving Repr

/-- Modelled from the spec: a Resource (`Resource.ts` is not among the
provided sources); only its identity matters here. -/
structure Resource where
  uri : String
deriving Repr

/-- Modelled from the spec: result of `tools/list` (`ListToolsResult.ts`
is not among the provided sources; `listTools` returns `{ tools: [] }`
on the degrade path). -/
structure ListToolsResult where
  tools : List Tool
deriving Repr

/-- Modelled from the spec: result of `resources/list`
(`ListResourcesResult.ts` is not among the provided sources). -/
structure ListResourcesResult where
  resources : List Resource
deriving Repr

/-- The mutable state of an `MCPClient` instance: the request-id counter
(`this.requestId`, initialised to 0 in the constructor). The server URL and
API key are fixed per instance and do not matter for the claims. -/
structure MCPClientState where
  requestId : Nat
deriving Repr, DecidableEq

/-- `MCPClient.getNextRequestId`: `return ++this.requestId` — pre-increment,
returning the incremented value. -/
def getNextRequestId (s : MCPClientState) : Nat × MCPClientState :=
  let n := s.requestId + 1
  (n, { requestId := n })

/-- One `MCPClient.request` call, with the whole network interaction
(fetch + decoding + error mapping) abstracted as `outcome`, a function from
the assigned request id to the call's result. The id is assigned first
(`const id = this.getNextRequestId()`); nothing later touches the counter,
so the state update is the same whether `outcome` succeeds or fails. -/
def requestStep (s : MCPClientState) (outcome : Nat → Except String JsonVal) :
    (Nat × Except String JsonVal) × MCPClientState :=
  let (id, s') := getNextRequestId s
  ((id, outcome id), s')

/-- A sequence of `request` calls against one client instance, returning the
(id, result) pair of each call in order, plus the final state. -/
def runRequests (s : MCPClientState) :
    List (Nat → Except String JsonVal) → List (Nat × Except String JsonVal) × MCPClientState
  | [] => ([], s)
  | o :: os =>
    let (r, s') := requestStep s o
    let (rs, s'') := runRequests s' os
    (r :: rs, s'')

/-- The ids used by a sequence of `request` calls. -/
def requestIdsUsed (s : MCPClientState) (os : List (Nat → Except String JsonVal)) : List Nat :=
  (runRequests s os).1.map Prod.fst

/-! ### SSE response decoding: `MCPClient.parseSSEResponse` -/

/-- JavaScript `text.split('\n')`: split a character list at every
occurrence of `c`, keeping empty segments. -/
def splitOnChar (c : Char) : List Char → List (List Char)
  | [] => [[]]
  | x :: xs =>
    let rest := splitOnChar c xs
    if x = c then [] :: rest
    else
      match rest with
      | [] => [[x]]
      | r :: rs => (x :: r) :: rs

/-- JavaScript `!line.trim()`: the line consists of whitespace only. -/
def isBlankLine (line : List Char) : Bool :=
  line.all (·.isWhitespace)

/-- JavaScript `line.startsWith(pre)`. -/
def lineStartsWith (pre : String) (line : List Char) : Bool :=
  charsStartsWith pre.data line

/-- The body of the `for (const line of lines)` loop in `parseSSEResponse`,
as a fold step over the accumulated `jsonData` (as characters):
skip blank and comment lines, append the payload of `data: ` lines
(`line.substring(6)`), skip `event: ` lines, skip `id:`/`retry:` lines, and
append any other non-blank line verbatim (the "might be raw JSON" branch). -/
def processLine (acc : List Char) (line : List Char) : List Char :=
  if isBlankLine line || lineStartsWith (":") line then acc
  else if lineStartsWith ("data: ") line then acc ++ line.drop 6
  else if lineStartsWith ("event: ") line then acc
  else if !isBlankLine line && !lineStartsWith ("id:") line &&
      !lineStartsWith ("retry:") line then
    acc ++ line
  else acc

/-- `parseSSEResponse` on an SSE-framed body: split on newlines, fold the
line processor, and fall back to the original text when the accumulation is
empty (`return jsonData || text`). -/
def parseSSEBody (text : String) : String :=
  let jsonData := (splitOnChar ('\n') text.data).foldl processLine []
  if jsonData.isEmpty then text else String.mk jsonData

/-- `parseSSEResponse` including the content-type dispatch: a body whose
content type mentions neither `text/event-stream` nor `text/plain` is
returned unchanged for direct JSON parsing. -/
def parseSSEResponse (contentType : String) (body : String) : String :=
  let isSSE := jsIncludes contentType ("text/event-stream") ||
    jsIncludes contentType ("text/plain")
  if isSSE then parseSSEBody body else body

/-- What the spec's words describe: the concatenation of the payloads of
the `data: ` lines only, every other line discarded. Used to compare the
spec sentence against `parseSSEBody`. -/
def sseSpecDataConcat (text : String) : String :=
  String.mk (((splitOnChar ('\n') text.data).filterMap fun line =>
    if lineStartsWith ("data: ") line then some (line.drop 6) else none).foldl (· ++ ·) [])

/-! ### Error-handling wrappers: `listTools` / `listResources` -/

/-- The catch-clause test shared by `listTools` and `listResources`:
`errorMessage.includes('not available') || errorMessage.includes('Method')
|| errorMessage.includes('-32601')`. -/
def isMethodNotFoundMsg (msg : String) : Bool :=
  jsIncludes msg ("not available") || jsIncludes msg ("Method") || jsIncludes msg ("-32601")

/-- `MCPClient.listTools`, as a function of the underlying `request`
outcome: success passes through; a failure whose message matches the
method-not-found markers degrades to `{ tools: [] }`; any other failure
is re-thrown. -/
def listToolsOutcome (req : Except String ListToolsResult) : Except String ListToolsResult :=
  match req with
  | .ok r => .ok r
  | .error msg =>
    if isMethodNotFoundMsg msg then .ok { tools := [] } else .error msg

/-- `MCPClient.listResources`, same degrade contract for `{ resources: [] }`. -/
def listResourcesOutcome (req : Except String ListResourcesResult) :
    Except String ListResourcesResult :=
  match req with
  | .ok r => .ok r
  | .error msg =>
    if isMethodNotFoundMsg msg then .ok { resources := [] } else .error msg

/-! ## Orchestrator: `AIService.ts` -/

/-- Message roles (`ChatMessage.role` in `openai` types). -/
inductive Role where
  | user
  | assistant
  | system
deriving Repr, DecidableEq

/-- One tool call recorded on a `ChatMessage` (`toolCalls` entries):
`{id, name, arguments}` with `arguments` an arbitrary JSON mapping. -/
structure ToolCall where
  id : String
  name : String
  arguments : JsonVal
deriving Repr

/-- One tool result recorded on a `ChatMessage` (`toolCallResults` entries). -/
structure ToolCallResult where
  toolCallId : String
  result : JsonVal
deriving Repr

/-- `ChatMessage` from `src/lib/openai/types`: optional fields model the
TypeScript `?` (absent = `none`). -/
structure ChatMessage where
  role : Role
  content : String
  toolCalls : Option (List ToolCall) := none
  toolCallResults : Option (List ToolCallResult) := none
deriving Repr

/-- A function invocation inside the model's reply
(`assistantMessage.tool_calls` entries): `type` is checked against
`'function'` before processing. -/
structure WireToolCallOut where
  id : String
  type : String
  name : String
  argumentsStr : String
deriving Repr, DecidableEq

/-- The model's reply (`response.choices[0].message`): `content` may be
null, `tool_calls` may be absent. -/
structure ModelReply where
  content : Option String := none
  toolCalls : Option (List WireToolCallOut) := none
deriving Repr, DecidableEq

/-- A tool call as serialized onto an outbound assistant wire message
(`arguments` already `JSON.stringify`-ed). -/
structure WireAsstToolCall where
  id : String
  name : String
  argumentsJson : String
deriving Repr, DecidableEq

/-- One message of the outbound OpenAI payload (`openAIMessages` entries). -/
inductive WireMsg where
  | system (content : String)
  | user (content : String)
  | assistant (content : String) (tool_calls : Option (List WireAsstToolCall))
  | tool (tool_call_id : String) (content : String)
deriving Repr, DecidableEq

/-- One entry of the `tools` array sent to the model
(`mcpToolsToOpenAIFunctions` output, `type: 'function'` implicit). -/
structure FunctionSchema where
  name : String
  description : String
  parameters : JsonVal
deriving Repr

/-- The chat-completion request issued by `chat`
(`openai.chat.completions.create` argument). -/
structure ModelRequest where
  model : String
  messages : List WireMsg
  tools : Option (List FunctionSchema)
  tool_choice : Option String
deriving Repr

/-- The orchestrator's environment: everything `chat` consumes that is not
repo code — the wall-clock-dependent system message, the current tool list
(`this.tools`), the platform JSON codec, and the MCP `callTool` outcome
(`this.mcpClient.callTool`, thrown errors as `.error`). -/
structure ChatEnv where
  sysMsg : ChatMessage
  tools : List Tool
  parseJson : String → Option JsonVal
  stringify : JsonVal → String
  callTool : String → JsonVal → Except String JsonVal

/-- `AIService.getSystemContextMessage`: a system-role message whose content
carries the current date/time plus fixed instructions. The fixed trailing
instruction text is abbreviated here (no claim inspects it); the structure —
role `system`, clock values interpolated — follows the source. -/
def getSystemContextMessage (dateTime date time : String) : ChatMessage :=
  { role := .system,
    content := "You are an AI assistant integrated with the Dime.Scheduler MCP (Model Context Protocol) server.\n\nCurrent Date and Time:\n- ISO DateTime: " ++
      dateTime ++ "\n- Date: " ++ date ++ "\n- Time: " ++ time ++
      "\n\nYou have access to tools and resources from the Dime.Scheduler MCP server." }

/-- `messages.length > 0 && messages[0].role === 'system'`. -/
def hasSystemMessage (messages : List ChatMessage) : Bool :=
  match messages with
  | [] => false
  | m :: _ => m.role == .system

/-- The `messagesWithSystemContext` construction at the top of `chat`:
prepend the synthesized system message unless the first entry is already a
system message. The caller's list is not mutated (pure value). -/
def prependSystemContext (sys : ChatMessage) (messages : List ChatMessage) : List ChatMessage :=
  if hasSystemMessage messages then messages else sys :: messages

/-- Wire conversion of one history entry (the `for (const msg of
messagesWithSystemContext)` loop body): `system`/`user` pass through;
an `assistant` entry carries its tool calls (if any, arguments stringified)
and is followed by one `tool` message per recorded result. -/
def chatMessageToWire (stringify : JsonVal → String) (msg : ChatMessage) : List WireMsg :=
  match msg.role with
  | .system => [WireMsg.system msg.content]
  | .user => [WireMsg.user msg.content]
  | .assistant =>
    let tcs : Option (List WireAsstToolCall) :=
      match msg.toolCalls with
      | some l =>
        if l.length > 0 then
          some (l.map fun tc => WireAsstToolCall.mk tc.id tc.name (stringify tc.arguments))
        else none
      | none => none
    let results : List WireMsg :=
      match msg.toolCallResults with
      | some l =>
        if l.length > 0 then
          l.map fun tcr => WireMsg.tool tcr.toolCallId (stringify tcr.result)
        else []
      | none => []
    WireMsg.assistant msg.content tcs :: results

/-- The full `openAIMessages` list, in history order. -/
def toWireMessages (stringify : JsonVal → String) : List ChatMessage → List WireMsg
  | [] => []
  | m :: rest => chatMessageToWire stringify m ++ toWireMessages stringify rest

/-- `AIService.mcpToolsToOpenAIFunctions`: each tool becomes one function
schema; `tool.description || 'Tool: <name>'` (JavaScript `||`: an empty
string also falls back), `tool.inputSchema || {type:'object',properties:{}}`. -/
def mcpToolsToOpenAIFunctions (tools : List Tool) : List FunctionSchema :=
  tools.map fun tool =>
    { name := tool.name,
      description :=
        match tool.description with
        | some d => if d == "" then "Tool: " ++ tool.name else d
        | none => "Tool: " ++ tool.name,
      parameters :=
        (tool.inputSchema).getD
          (JsonVal.obj [(("type"), JsonVal.str ("object")), (("properties"), JsonVal.obj [])]) }

/-- The `openai.chat.completions.create` call's argument object:
`tools`/`tool_choice` are `undefined` when the converted schema list is
empty, otherwise the schemas plus `'auto'`. -/
def buildModelRequest (tools : List Tool) (msgs : List WireMsg) : ModelRequest :=
  let fs := mcpToolsToOpenAIFunctions tools
  { model := "gpt-4-turbo-preview",
    messages := msgs,
    tools := if fs.length > 0 then some fs else none,
    tool_choice := if fs.length > 0 then some ("auto") else none }

/-- The wire payload `chat` sends for a given history. -/
def chatWirePayload (env : ChatEnv) (messages : List ChatMessage) : List WireMsg :=
  toWireMessages env.stringify (prependSystemContext env.sysMsg messages)

/-- The reply's function-typed tool calls, in reply order
(`if (toolCall.type === 'function')`). -/
def functionCallsOf (reply : ModelReply) : List WireToolCallOut :=
  (reply.toolCalls.getD []).filter fun tc => tc.type == "function"

/-- `JSON.parse(toolCall.function.arguments)` with the catch clause: on
parse failure the arguments fall back to the empty mapping `{}`. -/
def parsedArgs (env : ChatEnv) (tc : WireToolCallOut) : JsonVal :=
  (env.parseJson tc.argumentsStr).getD (JsonVal.obj [])

/-- Processing of one function invocation: record the call, execute it via
`callTool`, and record `{toolCallId, result}` on success or
`{toolCallId, result: {error: <message>}}` on failure. -/
def execOneToolCall (env : ChatEnv) (tc : WireToolCallOut) : ToolCall × ToolCallResult :=
  let args := parsedArgs env tc
  let call : ToolCall := { id := tc.id, name := tc.name, arguments := args }
  let res : ToolCallResult :=
    match env.callTool tc.name args with
    | .ok r => { toolCallId := tc.id, result := r }
    | .error msg => { toolCallId := tc.id, result := JsonVal.obj [(("error"), JsonVal.str msg)] }
  (call, res)

/-- The `toolCalls` list accumulated by the reply-processing loop. -/
def roundToolCalls (env : ChatEnv) (reply : ModelReply) : List ToolCall :=
  (functionCallsOf reply).map fun tc => (execOneToolCall env tc).1

/-- The `toolCallResults` list accumulated by the reply-processing loop. -/
def roundToolCallResults (env : ChatEnv) (reply : ModelReply) : List ToolCallResult :=
  (functionCallsOf reply).map fun tc => (execOneToolCall env tc).2

/-- `assistantMsgWithToolCalls`: the assistant message appended to the
working history before the recursive call. -/
def roundAssistantMsg (env : ChatEnv) (reply : ModelReply) : ChatMessage :=
  { role := .assistant,
    content := reply.content.getD "",
    toolCalls := some (roundToolCalls env reply),
    toolCallResults := some (roundToolCallResults env reply) }

/-- The message built by `chat`'s final `return` statement:
`toolCalls`/`toolCallResults` are `undefined` when the respective list is
empty. -/
def finalAssistantMsg (env : ChatEnv) (reply : ModelReply) : ChatMessage :=
  let tcs := roundToolCalls env reply
  let trs := roundToolCallResults env reply
  { role := .assistant,
    content := reply.content.getD "",
    toolCalls := if tcs.length > 0 then some tcs else none,
    toolCallResults := if trs.length > 0 then some trs else none }

/-- `AIService.chat`, with the model abstracted as a script of replies, one
consumed per round (the code's recursion is bounded only by the model's
behavior; an exhausted script models `'No response from OpenAI'`). A round
whose reply carries function invocations executes them, appends the round's
assistant message to the caller's history, and recurses; otherwise `chat`
returns the final assistant message. -/
def chat (env : ChatEnv) : List ModelReply → List ChatMessage → Except String ChatMessage
  | [], _ => .error "No response from OpenAI"
  | reply :: rest, messages =>
    if (roundToolCalls env reply).length > 0 then
      chat env rest (messages ++ [roundAssistantMsg env reply])
    else
      .ok (finalAssistantMsg env reply)

/-- The sequence of chat-completion requests `chat` issues, one per round
(a request is issued even on the round where the script runs out). -/
def chatRequests (env : ChatEnv) : List ModelReply → List ChatMessage → List ModelRequest
  | [], messages => [buildModelRequest env.tools (chatWirePayload env messages)]
  | reply :: rest, messages =>
    let req := buildModelRequest env.tools (chatWirePayload env messages)
    if (roundToolCalls env reply).length > 0 then
      req :: chatRequests env rest (messages ++ [roundAssistantMsg env reply])
    else [req]

/-! ## Session store: `mcpSession.ts` -/

/-- The `AIService` instance state relevant here: its mutable tool list. -/
structure AIServiceState where
  tools : List Tool
deriving Repr

/-- `AIService.setTools`: wholesale replacement. -/
def setTools (s : AIServiceState) (tools : List Tool) : AIServiceState :=
  { s with tools := tools }

/-- The session store's state relevant to tool refresh: the store's `tools`
field and the `AIService` instance (assumed present, as the claims concern
the orchestrator's list). -/
structure SessionState where
  storeTools : List Tool
  aiService : AIServiceState
deriving Repr

/-- `loadTools` from `mcpSession.ts`, as a function of the `listTools()`
outcome: on success the store's list becomes `result.tools` and the
AI service is updated only when that list is non-empty
(`if (aiService && tools.length > 0) aiService.setTools(tools)`); on a
thrown error the store's list is cleared and the AI service untouched. -/
def loadTools (s : SessionState) (listResult : Except String ListToolsResult) : SessionState :=
  match listResult with
  | .error _ => { s with storeTools := [] }
  | .ok r =>
    let tools := r.tools
    if tools.length > 0 then
      { storeTools := tools, aiService := setTools s.aiService tools }
    else
      { s with storeTools := tools }

/-! ## Helper lemmas -/

/-- `processLine` only ever appends to its accumulator. -/
theorem processLine_acc (acc l : List Char) : processLine acc l = acc ++ processLine [] l := by
  simp only [processLine]
  split
  · simp
  · split
    · simp
    · split
      · simp
      · split <;> simp

/-- The SSE line fold distributes over the accumulator: payloads are
appended in line order. -/
theorem foldl_processLine_acc (lines : List (List Char)) (acc : List Char) :
    lines.foldl processLine acc = acc ++ lines.foldl processLine [] := by
  induction lines generalizing acc with
  | nil => simp
  | cons l ls ih =>
    simp only [List.foldl_cons]
    rw [ih (processLine acc l), ih (processLine [] l), processLine_acc acc l, List.append_assoc]

/-- Ids and final counter of a request sequence started at counter `k`. -/
theorem runRequests_spec (outcomes : List (Nat → Except String JsonVal)) (k : Nat) :
    (runRequests { requestId := k } outcomes).1.map Prod.fst =
      (List.range outcomes.length).map (fun i => k + 1 + i) ∧
    (runRequests { requestId := k } outcomes).2 = { requestId := k + outcomes.length } := by
  induction outcomes generalizing k with
  | nil => simp [runRequests]
  | cons o os ih =>
    obtain ⟨ih1, ih2⟩ := ih (k + 1)
    constructor
    · simp only [runRequests, requestStep, getNextRequestId, List.map_cons, ih1,
        List.length_cons, List.range_succ_eq_map, List.map_map]
      rw [List.cons_eq_cons]
      refine ⟨by omega, ?_⟩
      apply List.map_congr_left
      intro i _
      simp only [Function.comp_apply]
      omega
    · simp only [runRequests, requestStep, getNextRequestId, ih2, List.length_cons]
      congr 1
      omega

/-- The data-model invariant on one message: every recorded result's
`toolCallId` references a recorded call's `id` in the same message. -/
def msgToolIdInvariant (m : ChatMessage) : Prop :=
  ∀ r ∈ m.toolCallResults.getD [], ∃ c ∈ m.toolCalls.getD [], c.id = r.toolCallId

/-- The recorded call keeps the wire call's id, name and parsed arguments. -/
theorem execOneToolCall_fst (env : ChatEnv) (tc : WireToolCallOut) :
    (execOneToolCall env tc).1 = { id := tc.id, name := tc.name, arguments := parsedArgs env tc } :=
  rfl

/-- The recorded result always carries the wire call's id, on success and on
failure alike. -/
theorem execOneToolCall_snd_id (env : ChatEnv) (tc : WireToolCallOut) :
    ((execOneToolCall env tc).2).toolCallId = tc.id := by
  show (match env.callTool tc.name (parsedArgs env tc) with
    | .ok r => ({ toolCallId := tc.id, result := r } : ToolCallResult)
    | .error msg =>
      { toolCallId := tc.id, result := JsonVal.obj [(("error"), JsonVal.str msg)] }).toolCallId
    = tc.id
  cases env.callTool tc.name (parsedArgs env tc) <;> rfl

/-- Calls and results of a round are in bijection, in order. -/
theorem round_results_length (env : ChatEnv) (reply : ModelReply) :
    (roundToolCallResults env reply).length = (roundToolCalls env reply).length := by
  simp [roundToolCalls, roundToolCallResults]

/-- The ids of a round's results, in order, are the ids of its calls. -/
theorem round_results_id_map (env : ChatEnv) (reply : ModelReply) :
    (roundToolCallResults env reply).map ToolCallResult.toolCallId =
      (roundToolCalls env reply).map ToolCall.id := by
  simp only [roundToolCalls, roundToolCallResults, List.map_map]
  apply List.map_congr_left
  intro tc _
  simp only [Function.comp_apply, execOneToolCall_snd_id, execOneToolCall_fst]

/-- Every result of a round is matched by the call recorded for the same
wire invocation. -/
theorem mem_round_results_exists_call (env : ChatEnv) (reply : ModelReply)
    (r : ToolCallResult) (hr : r ∈ roundToolCallResults env reply) :
    ∃ c ∈ roundToolCalls env reply, c.id = r.toolCallId := by
  obtain ⟨tc, htc, rfl⟩ := List.mem_map.mp hr
  exact ⟨(execOneToolCall env tc).1, List.mem_map_of_mem _ htc,
    by rw [execOneToolCall_snd_id, execOneToolCall_fst]⟩

/-- Every request `chat` issues is built by `buildModelRequest` over the
current tool list. -/
theorem chatRequests_shape (env : ChatEnv) (script : List ModelReply)
    (msgs : List ChatMessage) (req : ModelRequest) (h : req ∈ chatRequests env script msgs) :
    ∃ wm, req = buildModelRequest env.tools wm := by
  induction script generalizing msgs with
  | nil =>
    simp only [chatRequests, List.mem_singleton] at h
    exact ⟨_, h⟩
  | cons reply rest ih =>
    simp only [chatRequests] at h
    by_cases hc : (roundToolCalls env reply).length > 0
    · rw [if_pos hc] at h
      rcases List.mem_cons.mp h with h | h
      · exact ⟨_, h⟩
      · exact ih _ h
    · rw [if_neg hc] at h
      exact ⟨_, List.mem_singleton.mp h⟩

/-! ## Claim theorems -/

/-- Claim C1: a failed `listTools` (symmetrically `listResources`) returns
the empty result exactly when the failure message matches one of the
method-not-found markers `"not available"`, `"Method"`, `"-32601"`; every
other failure (e.g. a message containing `"Internal error"`) propagates
unchanged, and successes pass through. -/
theorem listTools_degrade_iff_method_not_found :
    (∀ msg, listToolsOutcome (.error msg) = .ok { tools := [] } ↔
      isMethodNotFoundMsg msg = true) ∧
    (∀ msg, isMethodNotFoundMsg msg = false → listToolsOutcome (.error msg) = .error msg) ∧
    (∀ r, listToolsOutcome (.ok r) = .ok r) ∧
    (∀ msg, listResourcesOutcome (.error msg) = .ok { resources := [] } ↔
      isMethodNotFoundMsg msg = true) ∧
    (∀ msg, isMethodNotFoundMsg msg = false → listResourcesOutcome (.error msg) = .error msg) ∧
    (∀ r, listResourcesOutcome (.ok r) = .ok r) ∧
    listToolsOutcome (.error ("Internal error")) = .error ("Internal error") ∧
    listToolsOutcome (.error ("Method not found")) = .ok { tools := [] } := by
  refine ⟨fun msg => ⟨fun h => ?_, fun hm => by simp [listToolsOutcome, hm]⟩,
    fun msg hm => by simp [listToolsOutcome, hm],
    fun r => rfl,
    fun msg => ⟨fun h => ?_, fun hm => by simp [listResourcesOutcome, hm]⟩,
    fun msg hm => by simp [listResourcesOutcome, hm],
    fun r => rfl, rfl, rfl⟩
  · by_cases hm : isMethodNotFoundMsg msg = true
    · exact hm
    · simp [listToolsOutcome, hm] at h
  · by_cases hm : isMethodNotFoundMsg msg = true
    · exact hm
    · simp [listResourcesOutcome, hm] at h

/-- Witness for C1 at concrete messages. -/
theorem listTools_degrade_witness :
    isMethodNotFoundMsg ("Internal error") = false ∧
    listToolsOutcome (.error ("Internal error")) = .error ("Internal error") ∧
    listResourcesOutcome (.error ("Internal error")) = .error ("Internal error") :=
  ⟨rfl, listTools_degrade_iff_method_not_found.2.1 ("Internal error") rfl,
    listTools_degrade_iff_method_not_found.2.2.2.2.1 ("Internal error") rfl⟩

/-- Claim C4: over any sequence of `request` calls on one client instance —
whatever each call's outcome — the ids used are `1, 2, ..., n` in order:
strictly increasing, never reused, first id `1`, and the counter is bumped
exactly once per call. -/
theorem requestIds_strictly_increasing :
    (∀ outcomes, requestIdsUsed { requestId := 0 } outcomes =
      (List.range outcomes.length).map (· + 1)) ∧
    (∀ outcomes, (requestIdsUsed { requestId := 0 } outcomes).Pairwise (· < ·)) ∧
    (∀ outcomes, (runRequests { requestId := 0 } outcomes).2.requestId = outcomes.length) ∧
    (∀ s outcome, requestStep s outcome =
      ((s.requestId + 1, outcome (s.requestId + 1)), { requestId := s.requestId + 1 })) ∧
    (∀ outcomes, outcomes ≠ [] →
      (requestIdsUsed { requestId := 0 } outcomes).head? = some 1) := by
  have key : ∀ outcomes, requestIdsUsed { requestId := 0 } outcomes =
      (List.range outcomes.length).map (· + 1) := by
    intro outcomes
    rw [requestIdsUsed, (runRequests_spec outcomes 0).1]
    apply List.map_congr_left
    intro i _
    omega
  refine ⟨key, fun outcomes => ?_, fun outcomes => ?_, fun s outcome => rfl,
    fun outcomes h => ?_⟩
  · rw [key]
    exact (List.pairwise_lt_range _).map _ (fun a b hab => by omega)
  · rw [(runRequests_spec outcomes 0).2]
    simp
  · match outcomes with
    | o :: os => simp [key, List.range_succ_eq_map]

/-- Witness for C4 at a concrete three-call sequence. -/
theorem requestIds_witness :
    requestIdsUsed { requestId := 0 }
      [fun _ => .ok JsonVal.null, fun _ => .error ("HTTP error! status: 500"),
        fun _ => .ok JsonVal.null] = [1, 2, 3] ∧
    (requestIdsUsed { requestId := 0 }
      [fun _ => .ok JsonVal.null, fun _ => .error ("HTTP error! status: 500"),
        fun _ => .ok JsonVal.null]).head? = some 1 := by
  have h1 := requestIds_strictly_increasing.1
    [fun _ => .ok JsonVal.null, fun _ => .error ("HTTP error! status: 500"),
      fun _ => .ok JsonVal.null]
  have h2 := requestIds_strictly_increasing.2.2.2.2
    [fun _ => .ok JsonVal.null, fun _ => .error ("HTTP error! status: 500"),
      fun _ => .ok JsonVal.null] (by simp)
  exact ⟨by simpa using h1, h2⟩

/-- Counterexample for C3 as stated: for the SSE-typed body `"x"` the
decoder's output is `"x"` (the raw-JSON branch plus fallback), not the
concatenation of the `data: ` lines (which is empty). -/
theorem sse_decode_not_only_data_lines :
    parseSSEResponse ("text/plain") ("x") = ("x") ∧
    sseSpecDataConcat ("x") = ("") ∧
    parseSSEResponse ("text/plain") ("x") ≠ sseSpecDataConcat ("x") := by
  refine ⟨rfl, rfl, ?_⟩
  decide

/-- Claim C3 as amended: for an SSE-typed response the decoder splits the
body into lines and folds them in order — discarding blank lines, comment
lines starting with `:`, `event: ` lines and `id:`/`retry:` lines, appending
the content of `data: ` lines with the 6-character prefix stripped, but also
appending any other non-blank line verbatim, and falling back to the whole
body when the accumulation is empty. For the example body
`event: message\ndata: {"a":\ndata: 1}\n\n` the result is `{"a":1}`, which
also equals the plain data-line concatenation. -/
theorem sse_decode_amended :
    parseSSEBody ("event: message\ndata: \x7b\"a\":\ndata: 1\x7d\n\n") = ("\x7b\"a\":1\x7d") ∧
    sseSpecDataConcat ("event: message\ndata: \x7b\"a\":\ndata: 1\x7d\n\n") = ("\x7b\"a\":1\x7d") ∧
    (∀ ct body, (jsIncludes ct ("text/event-stream") || jsIncludes ct ("text/plain")) = true →
      parseSSEResponse ct body = parseSSEBody body) ∧
    (∀ ct body, (jsIncludes ct ("text/event-stream") || jsIncludes ct ("text/plain")) = false →
      parseSSEResponse ct body = body) ∧
    (∀ acc s, processLine acc (("data: ").data ++ s) = acc ++ s) ∧
    (∀ acc s, processLine acc (("event: ").data ++ s) = acc) ∧
    (∀ acc s, processLine acc ((":").data ++ s) = acc) ∧
    (∀ acc s, processLine acc (("id:").data ++ s) = acc) ∧
    (∀ acc s, processLine acc (("retry:").data ++ s) = acc) ∧
    (∀ acc, processLine acc [] = acc) ∧
    (∀ acc, processLine acc (("x").data) = acc ++ ("x").data) ∧
    (∀ (lines : List (List Char)) (acc : List Char),
      List.foldl processLine acc lines = acc ++ List.foldl processLine [] lines) ∧
    parseSSEBody (":c") = (":c") := by
  refine ⟨by decide, by decide,
    fun ct body h => by simp [parseSSEResponse, h],
    fun ct body h => by simp [parseSSEResponse, h],
    fun acc s => rfl, fun acc s => rfl, fun acc s => rfl, fun acc s => rfl, fun acc s => rfl,
    fun acc => rfl, fun acc => rfl, foldl_processLine_acc, by decide⟩

/-- Witness for C3's amended content-type dispatch at a concrete response. -/
theorem sse_decode_amended_witness :
    parseSSEResponse ("text/event-stream; charset=utf-8")
      ("data: \x7b\"jsonrpc\":\"2.0\"\x7d") = ("\x7b\"jsonrpc\":\"2.0\"\x7d") := by
  have h := sse_decode_amended.2.2.1 ("text/event-stream; charset=utf-8")
    ("data: \x7b\"jsonrpc\":\"2.0\"\x7d") (by decide)
  rw [h]
  decide

/-! ### Orchestrator claims -/

/-- Claim C2: when a requested tool's execution fails, the failure is caught:
the round records `{toolCallId, result: {error: <message>}}` for that call,
the round's assistant message (carrying those results) is appended to the
working history and the model is re-queried, and once a reply without
function invocations arrives the turn completes with a normal assistant
answer — the tool failure never raises out of `chat`. -/
theorem toolFailure_recorded_and_turn_completes (env : ChatEnv) (reply : ModelReply)
    (tc : WireToolCallOut) (emsg : String)
    (htc : tc ∈ functionCallsOf reply)
    (hfail : env.callTool tc.name (parsedArgs env tc) = .error emsg) :
    ToolCallResult.mk tc.id (JsonVal.obj [(("error"), JsonVal.str emsg)])
        ∈ roundToolCallResults env reply ∧
    (roundAssistantMsg env reply).toolCallResults = some (roundToolCallResults env reply) ∧
    (∀ rest msgs, chat env (reply :: rest) msgs =
      chat env rest (msgs ++ [roundAssistantMsg env reply])) ∧
    (∀ reply2 rest2 msgs, functionCallsOf reply2 = [] →
      chat env (reply :: reply2 :: rest2) msgs = .ok (finalAssistantMsg env reply2) ∧
      (finalAssistantMsg env reply2).role = .assistant) := by
  have hlen : (roundToolCalls env reply).length > 0 := by
    simp only [roundToolCalls, List.length_map]
    exact List.length_pos.mpr (List.ne_nil_of_mem htc)
  have hstep : ∀ rest msgs, chat env (reply :: rest) msgs =
      chat env rest (msgs ++ [roundAssistantMsg env reply]) := by
    intro rest msgs
    simp only [chat]
    rw [if_pos hlen]
  refine ⟨?_, rfl, hstep, ?_⟩
  · refine List.mem_map.mpr ⟨tc, htc, ?_⟩
    simp only [execOneToolCall, parsedArgs] at hfail ⊢
    rw [hfail]
  · intro reply2 rest2 msgs h2
    have hzero : roundToolCalls env reply2 = [] := by
      simp [roundToolCalls, h2]
    refine ⟨?_, rfl⟩
    rw [hstep]
    simp only [chat, hzero]
    rfl

/-- Claim C5: the synthesized system message is prepended to the outbound
wire payload only when the history's first entry is not a system message;
it is a value-level construction that leaves the caller's history unchanged,
and the history handed to the recursive `chat` call is exactly the original
history plus the round's assistant message — the synthesized message (role
`system`) is never part of it. -/
theorem systemContext_ephemeral (env : ChatEnv) :
    (∀ msgs, hasSystemMessage msgs = false →
      chatWirePayload env msgs = toWireMessages env.stringify (env.sysMsg :: msgs)) ∧
    (∀ msgs, hasSystemMessage msgs = true →
      chatWirePayload env msgs = toWireMessages env.stringify msgs) ∧
    (∀ dt d t, (getSystemContextMessage dt d t).role = .system) ∧
    (∀ reply rest msgs, (roundToolCalls env reply).length > 0 →
      chat env (reply :: rest) msgs = chat env rest (msgs ++ [roundAssistantMsg env reply])) ∧
    (∀ reply, (roundAssistantMsg env reply).role = .assistant) ∧
    (∀ reply msgs, env.sysMsg.role = .system → env.sysMsg ∉ msgs →
      env.sysMsg ∉ msgs ++ [roundAssistantMsg env reply]) := by
  refine ⟨fun msgs h => ?_, fun msgs h => ?_, fun dt d t => rfl,
    fun reply rest msgs hlen => ?_, fun reply => rfl, fun reply msgs hrole hnotin => ?_⟩
  · simp [chatWirePayload, prependSystemContext, h]
  · simp [chatWirePayload, prependSystemContext, h]
  · simp only [chat]
    rw [if_pos hlen]
  · rw [List.mem_append]
    rintro (h | h)
    · exact hnotin h
    · have := List.mem_singleton.mp h
      have hr : env.sysMsg.role = Role.assistant := by rw [this]; rfl
      rw [hrole] at hr
      exact Role.noConfusion hr

/-- Claim C6: a function invocation whose argument string fails JSON parsing
does not fail the chat call — its arguments fall back to the empty mapping,
the call is still recorded and still executed via `callTool` with those
empty arguments. -/
theorem malformed_arguments_fallback_empty (env : ChatEnv) (tc : WireToolCallOut)
    (hparse : env.parseJson tc.argumentsStr = none) :
    parsedArgs env tc = JsonVal.obj [] ∧
    (execOneToolCall env tc).1 = { id := tc.id, name := tc.name, arguments := JsonVal.obj [] } ∧
    (execOneToolCall env tc).2 =
      (match env.callTool tc.name (JsonVal.obj []) with
        | .ok r => ToolCallResult.mk tc.id r
        | .error m => ToolCallResult.mk tc.id (JsonVal.obj [(("error"), JsonVal.str m)])) ∧
    (∀ reply, tc ∈ functionCallsOf reply →
      (execOneToolCall env tc).1 ∈ roundToolCalls env reply ∧
      (execOneToolCall env tc).2 ∈ roundToolCallResults env reply) := by
  have hargs : parsedArgs env tc = JsonVal.obj [] := by
    simp [parsedArgs, hparse]
  refine ⟨hargs, ?_, ?_, fun reply htc =>
    ⟨List.mem_map_of_mem _ htc, List.mem_map_of_mem _ htc⟩⟩
  · rw [execOneToolCall_fst, hargs]
  · show (match env.callTool tc.name (parsedArgs env tc) with
      | .ok r => ToolCallResult.mk tc.id r
      | .error m => ToolCallResult.mk tc.id (JsonVal.obj [(("error"), JsonVal.str m)])) = _
    rw [hargs]

/-- Claim C7: when the orchestrator's tool list is empty, every request
`chat` issues carries no `tools` and no `tool_choice` field; when it is
non-empty, every request carries the converted function schemas plus the
automatic tool-choice policy. -/
theorem no_tools_omits_tool_fields (env : ChatEnv) (script : List ModelReply)
    (msgs : List ChatMessage) :
    (env.tools = [] → ∀ req ∈ chatRequests env script msgs,
      req.tools = none ∧ req.tool_choice = none) ∧
    (env.tools ≠ [] → ∀ req ∈ chatRequests env script msgs,
      req.tools = some (mcpToolsToOpenAIFunctions env.tools) ∧
      req.tool_choice = some ("auto")) := by
  constructor
  · intro h req hreq
    obtain ⟨wm, rfl⟩ := chatRequests_shape env script msgs req hreq
    simp [buildModelRequest, mcpToolsToOpenAIFunctions, h]
  · intro h req hreq
    obtain ⟨wm, rfl⟩ := chatRequests_shape env script msgs req hreq
    have hlen : (mcpToolsToOpenAIFunctions env.tools).length > 0 := by
      simp only [mcpToolsToOpenAIFunctions, List.length_map]
      exact List.length_pos.mpr h
    simp [buildModelRequest, if_pos hlen]

/-- Claim C8: every assistant message the orchestrator constructs satisfies
the data-model invariant — each `toolCallId` in its `toolCallResults` is the
id of a call in its own `toolCalls`, and the results pair with the calls
one-to-one in call order. -/
theorem toolCallResults_reference_toolCalls (env : ChatEnv) (reply : ModelReply) :
    (roundToolCallResults env reply).map ToolCallResult.toolCallId =
      (roundToolCalls env reply).map ToolCall.id ∧
    msgToolIdInvariant (roundAssistantMsg env reply) ∧
    msgToolIdInvariant (finalAssistantMsg env reply) := by
  refine ⟨round_results_id_map env reply, ?_, ?_⟩
  · intro r hr
    simp only [roundAssistantMsg, Option.getD_some] at hr ⊢
    exact mem_round_results_exists_call env reply r hr
  · intro r hr
    by_cases hc : (roundToolCalls env reply).length > 0
    · have hrc : (roundToolCallResults env reply).length > 0 := by
        rw [round_results_length]; exact hc
      simp only [finalAssistantMsg, if_pos hc, if_pos hrc, Option.getD_some] at hr ⊢
      exact mem_round_results_exists_call env reply r hr
    · have hrc : ¬(roundToolCallResults env reply).length > 0 := by
        rw [round_results_length]; exact hc
      simp only [finalAssistantMsg, if_neg hc, if_neg hrc, Option.getD_none] at hr
      exact absurd hr (List.not_mem_nil r)

/-- Claim C10: whenever `chat` terminates with a message, that message has
both `toolCalls` and `toolCallResults` absent and role `assistant`: the
return is reached only on a reply with zero function invocations. -/
theorem chat_final_no_tool_fields (env : ChatEnv) (script : List ModelReply)
    (msgs : List ChatMessage) (m : ChatMessage) (h : chat env script msgs = .ok m) :
    m.toolCalls = none ∧ m.toolCallResults = none ∧ m.role = .assistant := by
  induction script generalizing msgs with
  | nil => simp [chat] at h
  | cons reply rest ih =>
    simp only [chat] at h
    by_cases hc : (roundToolCalls env reply).length > 0
    · rw [if_pos hc] at h
      exact ih _ h
    · rw [if_neg hc] at h
      injection h with h
      subst h
      have hrc : ¬(roundToolCallResults env reply).length > 0 := by
        rw [round_results_length]; exact hc
      refine ⟨?_, ?_, rfl⟩
      · simp only [finalAssistantMsg, if_neg hc]
      · simp only [finalAssistantMsg, if_neg hrc]

/-! ### Session-store claim (C9) -/

/-- A sample tool for concrete instances. -/
def t0 : Tool := { name := "getResourceSchedule" }

/-- A session state whose orchestrator currently knows one tool. -/
def sess0 : SessionState := { storeTools := [t0], aiService := { tools := [t0] } }

/-- Counterexample for C9 as stated: a successful listing call returning
zero tools does not replace the orchestrator's list — `loadTools` skips
`setTools` when the new list is empty, so the orchestrator keeps its stale
tool while the store is cleared. -/
theorem loadTools_empty_keeps_old_tools :
    (loadTools sess0 (.ok { tools := [] })).storeTools = [] ∧
    (loadTools sess0 (.ok { tools := [] })).aiService.tools = [t0] ∧
    (loadTools sess0 (.ok { tools := [] })).aiService.tools ≠ [] :=
  ⟨rfl, rfl, fun h => List.cons_ne_nil t0 [] h⟩

/-- Claim C9 as amended: `setTools` itself replaces the orchestrator's list
wholesale (no merging), and on each refresh the store's list is replaced by
the newly listed tools — but the orchestrator's list is replaced only when
the new list is non-empty; an empty listing (or a failed one) leaves the
orchestrator's previous list in place. -/
theorem loadTools_amended :
    (∀ s ts, (setTools s ts).tools = ts) ∧
    (∀ s r, (loadTools s (.ok r)).storeTools = r.tools) ∧
    (∀ s r, r.tools ≠ [] →
      (loadTools s (.ok r)).aiService = setTools s.aiService r.tools) ∧
    (∀ s r, r.tools = [] → (loadTools s (.ok r)).aiService = s.aiService) ∧
    (∀ s msg, (loadTools s (.error msg)).storeTools = [] ∧
      (loadTools s (.error msg)).aiService = s.aiService) := by
  refine ⟨fun s ts => rfl, fun s r => ?_, fun s r h => ?_, fun s r h => ?_,
    fun s msg => ⟨rfl, rfl⟩⟩
  · simp only [loadTools]
    split <;> rfl
  · have hlen : r.tools.length > 0 := List.length_pos.mpr h
    simp only [loadTools, if_pos hlen]
  · simp only [loadTools, h]
    rfl

/-- Witness for C9's amended claim at concrete states. -/
theorem loadTools_amended_witness :
    (loadTools sess0 (.ok { tools := [] })).aiService = sess0.aiService ∧
    (loadTools sess0 (.ok { tools := [t0] })).aiService = setTools sess0.aiService [t0] :=
  ⟨loadTools_amended.2.2.2.1 sess0 { tools := [] } rfl,
    loadTools_amended.2.2.1 sess0 { tools := [t0] } (fun h => List.cons_ne_nil t0 [] h)⟩

/-! ### Concrete instances for the orchestrator witnesses -/

/-- A concrete orchestrator environment: empty tool list, a JSON parser that
rejects everything, and a `callTool` that always fails with `"boom"`. -/
def env0 : ChatEnv :=
  { sysMsg := getSystemContextMessage ("2026-10-11T00:00:00.000Z")
      ("Saturday, October 11, 2026") ("12:00:00 AM UTC"),
    tools := [],
    parseJson := fun _ => none,
    stringify := fun _ => "",
    callTool := fun _ _ => .error ("boom") }

/-- A wire tool call whose argument string is not valid JSON. -/
def tcFail : WireToolCallOut :=
  { id := "call_1", type := "function", name := "getResourceSchedule",
    argumentsStr := "notjson" }

/-- A model reply requesting exactly the failing call. -/
def replyFail : ModelReply := { content := some (""), toolCalls := some [tcFail] }

/-- A model reply with no function invocations. -/
def replyPlain : ModelReply := { content := some ("done"), toolCalls := none }

/-- Witness for C2: with the always-failing `callTool`, the round records
the error payload for the requested call and the two-round script still
completes with the final assistant answer. -/
theorem toolFailure_witness :
    ToolCallResult.mk ("call_1") (JsonVal.obj [(("error"), JsonVal.str ("boom"))])
        ∈ roundToolCallResults env0 replyFail ∧
    chat env0 [replyFail, replyPlain] [] = .ok (finalAssistantMsg env0 replyPlain) :=
  ⟨(toolFailure_recorded_and_turn_completes env0 replyFail tcFail ("boom")
      (by decide) rfl).1,
    ((toolFailure_recorded_and_turn_completes env0 replyFail tcFail ("boom")
      (by decide) rfl).2.2.2 replyPlain [] [] rfl).1⟩

/-- Witness for C5 at the empty history and the failing round. -/
theorem systemContext_witness :
    chatWirePayload env0 [] = toWireMessages env0.stringify [env0.sysMsg] ∧
    env0.sysMsg ∉ ([] : List ChatMessage) ++ [roundAssistantMsg env0 replyFail] :=
  ⟨(systemContext_ephemeral env0).1 [] rfl,
    (systemContext_ephemeral env0).2.2.2.2.2 replyFail [] rfl (by simp)⟩

/-- Witness for C6: the unparseable argument string falls back to the empty
mapping and the call is still recorded for the round. -/
theorem malformed_arguments_witness :
    parsedArgs env0 tcFail = JsonVal.obj [] ∧
    (execOneToolCall env0 tcFail).1 ∈ roundToolCalls env0 replyFail :=
  ⟨(malformed_arguments_fallback_empty env0 tcFail rfl).1,
    ((malformed_arguments_fallback_empty env0 tcFail rfl).2.2.2 replyFail (by decide)).1⟩

/-- Witness for C7 with the empty tool list: the single request of a
zero-reply script carries neither tools nor tool choice. -/
theorem no_tools_witness :
    (buildModelRequest env0.tools (chatWirePayload env0 [])).tools = none ∧
    (buildModelRequest env0.tools (chatWirePayload env0 [])).tool_choice = none :=
  (no_tools_omits_tool_fields env0 [] []).1 rfl _ (List.mem_singleton_self _)

/-- Witness for C8 on the failing round's assistant message. -/
theorem toolCallResults_reference_witness :
    msgToolIdInvariant (roundAssistantMsg env0 replyFail) :=
  (toolCallResults_reference_toolCalls env0 replyFail).2.1

/-- Witness for C10: a one-reply script with no tool calls terminates with
a message with both tool fields absent. -/
theorem final_message_witness :
    (finalAssistantMsg env0 replyPlain).toolCalls = none ∧
    (finalAssistantMsg env0 replyPlain).toolCallResults = none :=
  ⟨(chat_final_no_tool_fields env0 [replyPlain] [] (finalAssistantMsg env0 replyPlain) rfl).1,
    (chat_final_no_tool_fields env0 [replyPlain] [] (finalAssistantMsg env0 replyPlain) rfl).2.1⟩

end MCPDemo
